import Mathlib

/-!
Verification of the junos NETCONF adapter (src/junos.go).

The Go package is a thin client around a NETCONF transport: it builds RPC
payload strings from a fixed template table, executes them through the
transport, inspects the reply envelope for device errors, and unmarshals a
single text node out of the XML payload.

Embedding conventions:
  * Go strings are `List Char`.
  * The transport (`Session.Conn.Exec`) is a parameter `exec : List Char → Envelope`;
    a transport-level error makes the source call `log.Fatal` (process abort), which
    is outside the envelope-level behaviour the claims are about.
  * A Go `(string, error)` result is `OpResult`: `ok s` is `(s, nil)`, `err m` is
    `("", errors.New(m))`, and `fatal` is the `log.Fatal` abort taken when XML
    unmarshalling fails.
  * The RPC template table `rpcCommand` lives in a repository file that is not under
    `src/`; its entries are modelled from the spec (fixed RPC XML, one `%d`/`%s` slot).
  * `fmt.Sprintf` with a single verb and `encoding/xml` shallow unmarshalling are
    external collaborators, modelled by small executable functions.
-/

namespace Junos

/-- Model of the decimal digit characters of a natural number, most significant digit
first, as produced by the Go fmt package for the `%d` verb. Fuel-indexed structural
recursion so that it evaluates inside the kernel. -/
def natDigitsGo (fuel n : Nat) : List Char :=
  match fuel with
  | 0 => []
  | f + 1 =>
    if n < 10 then [Nat.digitChar n]
    else natDigitsGo f (n / 10) ++ [Nat.digitChar (n % 10)]

/-- Decimal digit characters of a natural number; `n + 1` units of fuel always suffice. -/
def natDigits (n : Nat) : List Char := natDigitsGo (n + 1) n

/-- Model of Go `fmt.Sprintf("%d", n)`: sign-prefixed decimal rendering of an integer. -/
def intRepr (n : Int) : List Char :=
  if n < 0 then '-' :: natDigits n.natAbs else natDigits n.toNat

/-- Model of Go `fmt.Sprintf` applied to a template with a single verb occurrence:
the first occurrence of `verb` in the template is replaced by `repl`, all other
characters are kept unchanged. -/
def sprintf (verb repl : List Char) : List Char → List Char
  | [] => []
  | c :: t =>
    if verb <+: c :: t then repl ++ (c :: t).drop verb.length
    else c :: sprintf verb repl t

/-- Number of occurrences of `pat` as a contiguous substring of `l`, counted by
starting position. -/
def countOcc (pat l : List Char) : Nat :=
  (List.range l.length).countP fun p => decide (pat <+: l.drop p)

/-- One structured error descriptor of a NETCONF reply; per the spec's collaborator
contract each descriptor carries at least a message field. -/
structure RpcError where
  message : List Char
deriving DecidableEq

/-- The reply envelope produced by the transport's execute call: a success flag, an
ordered list of error descriptors and the raw XML payload string. -/
structure Envelope where
  ok : Bool
  errors : List RpcError
  data : List Char
deriving DecidableEq

/-- Result of a Junos operation that returns `(string, error)` in Go: `ok s` models
`(s, nil)`, `err m` models `("", errors.New(m))`, and `fatal` models the `log.Fatal`
process abort the source performs when XML unmarshalling fails. -/
inductive OpResult where
  | ok (s : List Char)
  | err (msg : List Char)
  | fatal
deriving DecidableEq

/-- The verb `%d` of the numeric template slots. -/
def pctD : List Char := ['%', 'd']

/-- The verb `%s` of the command template slots. -/
def pctS : List Char := ['%', 's']

/-- Modelled from the spec: the RPC template table `rpcCommand` is repository code that
is not under `src/`; the spec describes it as a fixed map from operation name to NETCONF
RPC XML. Entry for "lock". -/
def rpcLock : List Char := "<lock><target><candidate/></target></lock>".toList

/-- Modelled from the spec: `rpcCommand` entry for "unlock". -/
def rpcUnlock : List Char := "<unlock><target><candidate/></target></unlock>".toList

/-- Modelled from the spec: text before the single `%d` slot of the
"get-rollback-information" template. -/
def rpcGetRollbackPre : List Char := "<get-rollback-information><rollback>".toList

/-- Modelled from the spec: text after the single `%d` slot of the
"get-rollback-information" template. -/
def rpcGetRollbackSuf : List Char := "</rollback></get-rollback-information>".toList

/-- Modelled from the spec: `rpcCommand` entry for "get-rollback-information", a fixed
RPC XML template with a single `%d` slot for the rollback index. -/
def rpcGetRollback : List Char := rpcGetRollbackPre ++ pctD ++ rpcGetRollbackSuf

/-- Modelled from the spec: text before the single `%d` slot of the
"get-rollback-information-compare" template. -/
def rpcGetRollbackComparePre : List Char := "<get-rollback-information><compare>".toList

/-- Modelled from the spec: text after the single `%d` slot of the
"get-rollback-information-compare" template. -/
def rpcGetRollbackCompareSuf : List Char := "</compare></get-rollback-information>".toList

/-- Modelled from the spec: `rpcCommand` entry for "get-rollback-information-compare",
a fixed RPC XML template with a single `%d` slot for the compared rollback index. -/
def rpcGetRollbackCompare : List Char :=
  rpcGetRollbackComparePre ++ pctD ++ rpcGetRollbackCompareSuf

/-- Modelled from the spec: `rpcCommand` entry for "get-rescue-information". -/
def rpcGetRescue : List Char := "<get-rescue-information></get-rescue-information>".toList

/-- Modelled from the spec: `rpcCommand` entry for "command", the plain-text command
template with a single `%s` slot. -/
def rpcCommandText : List Char :=
  "<command format=\"text\">".toList ++ pctS ++ "</command>".toList

/-- Modelled from the spec: `rpcCommand` entry for "command-xml", the XML-rendering
command template with a single `%s` slot. -/
def rpcCommandXml : List Char := "<command>".toList ++ pctS ++ "</command>".toList

/-- Index of the first occurrence of `pat` as a contiguous substring, if any. -/
def strFind (pat : List Char) : List Char → Option Nat
  | [] => if pat = [] then some 0 else none
  | c :: t => if pat <+: c :: t then some 0 else (strFind pat t).map (· + 1)

/-- Opening XML tag text for an element name. -/
def openTag (tag : List Char) : List Char := '<' :: (tag ++ ['>'])

/-- Closing XML tag text for an element name. -/
def closeTag (tag : List Char) : List Char := '<' :: '/' :: (tag ++ ['>'])

/-- Text content between the first opening tag for `tag` and the following closing
tag, if both are present. -/
def textBetween (tag s : List Char) : Option (List Char) :=
  match strFind (openTag tag) s with
  | none => none
  | some i =>
    let rest := s.drop (i + (openTag tag).length)
    match strFind (closeTag tag) rest with
    | none => none
    | some j => some (rest.take j)

/-- Model of the external `encoding/xml` collaborator for the `rollbackXML` shape
(src/junos.go lines 18-21): unmarshalling fails (`none`) when the payload has no
`rollback-information` root, and otherwise yields the text of the
`configuration-output` node, or the empty string if the node is absent — the struct
field keeps its zero value in that case. -/
def unmarshalRollback (data : List Char) : Option (List Char) :=
  if strFind (openTag "rollback-information".toList) data = none then none
  else some ((textBetween "configuration-output".toList data).getD [])

/-- Model of the external `encoding/xml` collaborator for the `rescueXML` shape
(src/junos.go lines 24-27), analogous to `unmarshalRollback` with a
`rescue-information` root. -/
def unmarshalRescue (data : List Char) : Option (List Char) :=
  if strFind (openTag "rescue-information".toList) data = none then none
  else some ((textBetween "configuration-output".toList data).getD [])

/-- Model of the external `encoding/xml` collaborator for the `commandXML` shape
(src/junos.go lines 30-32): the raw inner XML of the first element of the payload;
unmarshalling fails (`none`) when the payload holds no element. -/
def unmarshalCommand (data : List Char) : Option (List Char) :=
  match strFind ['>'] data with
  | none => none
  | some i =>
    let name := (data.take i).drop 1
    let rest := data.drop (i + 1)
    match strFind (closeTag name) rest with
    | none => none
    | some j => some (rest.take j)

/-- Fallback string substituted by `GetRescueConfig` for an empty extracted text. -/
def noRescueMsg : List Char := "No rescue configuration set.".toList

/-- Fallback string substituted by `Command` for an empty extracted payload. -/
def noOutputMsg : List Char := "No output available.".toList

/-- Envelope handling of `Session.Lock` (src/junos.go lines 48-61): on an unsuccessful
envelope the loop over the error descriptors returns an error built from the first one;
in every other case the function returns nil. -/
def lockReply (resp : Envelope) : Option (List Char) :=
  match (if resp.ok = false then resp.errors.head? else none) with
  | some m => some m.message
  | none => none

/-- Envelope handling of `Session.Unlock` (src/junos.go lines 64-77), the same shape
as `lockReply`. -/
def unlockReply (resp : Envelope) : Option (List Char) :=
  match (if resp.ok = false then resp.errors.head? else none) with
  | some m => some m.message
  | none => none

/-- Envelope handling of `Session.GetRollbackConfig` (src/junos.go lines 80-101) after
the transport call: first error of an unsuccessful envelope, otherwise unmarshal the
payload and return the extracted configuration text verbatim. -/
def getRollbackConfigReply (reply : Envelope) : OpResult :=
  match (if reply.ok = false then reply.errors.head? else none) with
  | some m => OpResult.err m.message
  | none =>
    match unmarshalRollback reply.data with
    | none => OpResult.fatal
    | some cfg => OpResult.ok cfg

/-- Envelope handling of `Session.RollbackDiff` (src/junos.go lines 104-125); the body
duplicates the one of `GetRollbackConfig` in the source. -/
def rollbackDiffReply (reply : Envelope) : OpResult :=
  match (if reply.ok = false then reply.errors.head? else none) with
  | some m => OpResult.err m.message
  | none =>
    match unmarshalRollback reply.data with
    | none => OpResult.fatal
    | some cfg => OpResult.ok cfg

/-- Envelope handling of `Session.GetRescueConfig` (src/junos.go lines 128-152): like
the rollback operations, but an empty extracted text is replaced with the fixed
fallback string. -/
def getRescueConfigReply (reply : Envelope) : OpResult :=
  match (if reply.ok = false then reply.errors.head? else none) with
  | some m => OpResult.err m.message
  | none =>
    match unmarshalRescue reply.data with
    | none => OpResult.fatal
    | some cfg => if cfg = [] then OpResult.ok noRescueMsg else OpResult.ok cfg

/-- Envelope handling of `Session.Command` (src/junos.go lines 166-187): raw inner XML
of the reply payload, with an empty extraction replaced by the fixed fallback string. -/
def commandReply (reply : Envelope) : OpResult :=
  match (if reply.ok = false then reply.errors.head? else none) with
  | some m => OpResult.err m.message
  | none =>
    match unmarshalCommand reply.data with
    | none => OpResult.fatal
    | some cfg => if cfg = [] then OpResult.ok noOutputMsg else OpResult.ok cfg

/-- `Session.Lock`: execute the lock RPC and examine the reply envelope. -/
def lock (exec : List Char → Envelope) : Option (List Char) :=
  lockReply (exec rpcLock)

/-- `Session.Unlock`: execute the unlock RPC and examine the reply envelope. -/
def unlock (exec : List Char → Envelope) : Option (List Char) :=
  unlockReply (exec rpcUnlock)

/-- `Session.GetRollbackConfig`: format the rollback-fetch template with the rollback
index, execute, and handle the reply envelope. -/
def getRollbackConfig (exec : List Char → Envelope) (number : Int) : OpResult :=
  getRollbackConfigReply (exec (sprintf pctD (intRepr number) rpcGetRollback))

/-- `Session.RollbackDiff`: format the rollback-compare template with the compared
index, execute, and handle the reply envelope. -/
def rollbackDiff (exec : List Char → Envelope) (compare : Int) : OpResult :=
  rollbackDiffReply (exec (sprintf pctD (intRepr compare) rpcGetRollbackCompare))

/-- `Session.GetRescueConfig`: execute the rescue-fetch RPC and handle the reply. -/
def getRescueConfig (exec : List Char → Envelope) : OpResult :=
  getRescueConfigReply (exec rpcGetRescue)

/-- RPC string built by `Session.Command` (src/junos.go lines 160-165): the switch on
the format argument special-cases exactly the string "xml"; every other value takes the
default branch with the plain-text template. -/
def commandRpc (cmd fmtArg : List Char) : List Char :=
  if fmtArg = "xml".toList then sprintf pctS cmd rpcCommandXml
  else sprintf pctS cmd rpcCommandText

/-- `Session.Command`: build the RPC string from the format switch, execute, and
handle the reply envelope. -/
def command (exec : List Char → Envelope) (cmd fmtArg : List Char) : OpResult :=
  commandReply (exec (commandRpc cmd fmtArg))

/-! Concrete inputs used by witnesses and counterexamples. -/

/-- Unsuccessful envelope carrying two error descriptors, "A" first. -/
def envAB : Envelope :=
  { ok := false, errors := [⟨"A".toList⟩, ⟨"B".toList⟩], data := [] }

/-- Successful envelope whose rescue payload is well-formed but holds no
configuration text. -/
def envRescueEmpty : Envelope :=
  { ok := true, errors := [], data := "<rescue-information></rescue-information>".toList }

/-- Successful envelope whose command payload is a well-formed element with empty
inner XML. -/
def envCmdEmpty : Envelope :=
  { ok := true, errors := [], data := "<output></output>".toList }

/-- Successful envelope whose rollback payload is well-formed but holds no
configuration-output node, so the extracted text is empty. -/
def c1Env : Envelope :=
  { ok := true, errors := [],
    data := "<rollback-information></rollback-information>".toList }

/-- Unsuccessful envelope with an empty error list and a well-formed rollback payload. -/
def env9 : Envelope :=
  { ok := false, errors := [],
    data := ("<rollback-information><configuration-information><configuration-output>" ++
      "x</configuration-output></configuration-information></rollback-information>").toList }

/-- Envelope of the rollback-diff scenario of the spec: successful, with a payload
whose configuration-output text is "no changes". -/
def c7Env : Envelope :=
  { ok := true, errors := [],
    data := ("<rollback-information><configuration-information><configuration-output>" ++
      "no changes</configuration-output></configuration-information>" ++
      "</rollback-information>").toList }

/-- Transport that answers every RPC with a bare successful envelope. -/
def execOk : List Char → Envelope := fun _ => { ok := true, errors := [], data := [] }

/-! Helper lemmas shared by several claim theorems. -/

/-- On an unsuccessful envelope with a non-empty error list, every operation surfaces
exactly the first descriptor's message. -/
theorem reply_err_of_errors (reply : Envelope) (m : RpcError) (rest : List RpcError)
    (hok : reply.ok = false) (he : reply.errors = m :: rest) :
    lockReply reply = some m.message ∧ unlockReply reply = some m.message ∧
    getRollbackConfigReply reply = OpResult.err m.message ∧
    rollbackDiffReply reply = OpResult.err m.message ∧
    getRescueConfigReply reply = OpResult.err m.message ∧
    commandReply reply = OpResult.err m.message := by
  refine ⟨?_, ?_, ?_, ?_, ?_, ?_⟩ <;>
    simp [lockReply, unlockReply, getRollbackConfigReply, rollbackDiffReply,
      getRescueConfigReply, commandReply, hok, he]

/-! Claim theorems. -/

/-- C2: for every operation and every envelope with ok=false whose error list is
non-empty, the operation returns an error whose message equals exactly the first
descriptor's message; later descriptors are discarded, never combined. -/
theorem c2_first_error_only (reply : Envelope) (m : RpcError) (rest : List RpcError)
    (hok : reply.ok = false) (he : reply.errors = m :: rest) :
    lockReply reply = some m.message ∧ unlockReply reply = some m.message ∧
    getRollbackConfigReply reply = OpResult.err m.message ∧
    rollbackDiffReply reply = OpResult.err m.message ∧
    getRescueConfigReply reply = OpResult.err m.message ∧
    commandReply reply = OpResult.err m.message :=
  reply_err_of_errors reply m rest hok he

/-- Witness for C2 at the envelope with errors [\x7bmessage:"A"\x7d, \x7bmessage:"B"\x7d]. -/
theorem c2_first_error_only_witness :
    lockReply envAB = some "A".toList ∧ unlockReply envAB = some "A".toList ∧
    getRollbackConfigReply envAB = OpResult.err "A".toList ∧
    rollbackDiffReply envAB = OpResult.err "A".toList ∧
    getRescueConfigReply envAB = OpResult.err "A".toList ∧
    commandReply envAB = OpResult.err "A".toList :=
  c2_first_error_only envAB ⟨"A".toList⟩ [⟨"B".toList⟩] rfl rfl

/-- C3: for every successful envelope whose payload unmarshals with extracted text `t`,
GetRescueConfig returns the fixed fallback string when `t` is empty and `t` verbatim
otherwise, with nil error in both cases. -/
theorem c3_rescue_fallback (reply : Envelope) (t : List Char)
    (hok : reply.ok = true) (hu : unmarshalRescue reply.data = some t) :
    getRescueConfigReply reply = OpResult.ok (if t = [] then noRescueMsg else t) := by
  simp only [getRescueConfigReply, hok, hu]
  by_cases ht : t = [] <;> simp [ht]

/-- Witness for C3 at a successful envelope with an empty rescue configuration. -/
theorem c3_rescue_fallback_witness :
    getRescueConfigReply envRescueEmpty = OpResult.ok noRescueMsg := by
  have h := c3_rescue_fallback envRescueEmpty [] rfl (by decide)
  simpa using h

/-- C4: Command selects the XML-rendering template exactly when the format argument
equals "xml"; every other format value, "text" included, selects the plain-text
template. -/
theorem c4_format_switch (cmd fmtArg : List Char) :
    (fmtArg = "xml".toList → commandRpc cmd fmtArg = sprintf pctS cmd rpcCommandXml) ∧
    (fmtArg ≠ "xml".toList → commandRpc cmd fmtArg = sprintf pctS cmd rpcCommandText) ∧
    commandRpc cmd "text".toList = sprintf pctS cmd rpcCommandText := by
  refine ⟨fun h => ?_, fun h => ?_, ?_⟩
  · unfold commandRpc
    rw [if_pos h]
  · unfold commandRpc
    rw [if_neg h]
  · unfold commandRpc
    rw [if_neg (by decide)]

/-- Witness for C4 at a concrete command with formats "xml" and "json". -/
theorem c4_format_switch_witness :
    commandRpc "show version".toList "xml".toList =
      sprintf pctS "show version".toList rpcCommandXml ∧
    commandRpc "show version".toList "json".toList =
      sprintf pctS "show version".toList rpcCommandText :=
  ⟨(c4_format_switch "show version".toList "xml".toList).1 rfl,
   (c4_format_switch "show version".toList "json".toList).2.1 (by decide)⟩

/-- C5: for every successful envelope whose payload unmarshals with inner XML `t`,
Command returns the fixed fallback string when `t` is empty and `t` verbatim
otherwise, with nil error in both cases. -/
theorem c5_command_fallback (reply : Envelope) (t : List Char)
    (hok : reply.ok = true) (hu : unmarshalCommand reply.data = some t) :
    commandReply reply = OpResult.ok (if t = [] then noOutputMsg else t) := by
  simp only [commandReply, hok, hu]
  by_cases ht : t = [] <;> simp [ht]

/-- Witness for C5 at a successful envelope with an empty command payload. -/
theorem c5_command_fallback_witness :
    commandReply envCmdEmpty = OpResult.ok noOutputMsg := by
  have h := c5_command_fallback envCmdEmpty [] rfl (by decide)
  simpa using h

/-- C7: RollbackDiff(0), when the transport returns a successful envelope whose
payload's configuration-output text is "no changes", returns "no changes" with nil
error. -/
theorem c7_rollback_diff_scenario :
    rollbackDiff (fun _ => c7Env) 0 = OpResult.ok "no changes".toList := by
  decide

/-- C8: against a transport whose replies always have ok=true, Lock and then Unlock
both return nil. -/
theorem c8_lock_unlock_roundtrip (exec : List Char → Envelope)
    (h : ∀ c, (exec c).ok = true) :
    lock exec = none ∧ unlock exec = none := by
  constructor <;> simp [lock, unlock, lockReply, unlockReply, h]

/-- Witness for C8 at the transport that always answers with a successful envelope. -/
theorem c8_lock_unlock_roundtrip_witness :
    lock execOk = none ∧ unlock execOk = none :=
  c8_lock_unlock_roundtrip execOk (fun _ => rfl)

/-- C9: on an envelope with ok=false and an empty error list, every operation proceeds
exactly as on success: Lock and Unlock return nil, each fetch operation behaves as it
would on the same envelope with ok=true, and a payload that unmarshals is decoded and
returned with nil error. -/
theorem c9_empty_errors_proceeds (reply : Envelope)
    (hok : reply.ok = false) (he : reply.errors = []) :
    lockReply reply = none ∧ unlockReply reply = none ∧
    getRollbackConfigReply reply = getRollbackConfigReply { reply with ok := true } ∧
    rollbackDiffReply reply = rollbackDiffReply { reply with ok := true } ∧
    getRescueConfigReply reply = getRescueConfigReply { reply with ok := true } ∧
    commandReply reply = commandReply { reply with ok := true } ∧
    (∀ s, unmarshalRollback reply.data = some s →
      getRollbackConfigReply reply = OpResult.ok s ∧
      rollbackDiffReply reply = OpResult.ok s) ∧
    (∀ s, unmarshalRescue reply.data = some s →
      getRescueConfigReply reply = OpResult.ok (if s = [] then noRescueMsg else s)) ∧
    (∀ s, unmarshalCommand reply.data = some s →
      commandReply reply = OpResult.ok (if s = [] then noOutputMsg else s)) := by
  refine ⟨?_, ?_, ?_, ?_, ?_, ?_, ?_, ?_, ?_⟩
  · simp [lockReply, hok, he]
  · simp [unlockReply, hok, he]
  · simp [getRollbackConfigReply, hok, he]
  · simp [rollbackDiffReply, hok, he]
  · simp [getRescueConfigReply, hok, he]
  · simp [commandReply, hok, he]
  · intro s hs
    constructor <;> simp [getRollbackConfigReply, rollbackDiffReply, hok, he, hs]
  · intro s hs
    simp only [getRescueConfigReply, hok, he, hs]
    by_cases hts : s = [] <;> simp [hts]
  · intro s hs
    simp only [commandReply, hok, he, hs]
    by_cases hts : s = [] <;> simp [hts]

/-- Witness for C9 at an unsuccessful envelope with no error descriptors and a
well-formed rollback payload. -/
theorem c9_empty_errors_proceeds_witness :
    getRollbackConfigReply env9 = OpResult.ok "x".toList := by
  have h := (c9_empty_errors_proceeds env9 rfl rfl).2.2.2.2.2.2.1 "x".toList (by decide)
  exact h.1

/-- C10: GetRollbackConfig and RollbackDiff return identical results whenever the
transport replies with the same envelope; the envelope handling of the two operations
is the same function of the reply. -/
theorem c10_rollback_ops_agree (e : Envelope) (n m : Int) :
    getRollbackConfig (fun _ => e) n = rollbackDiff (fun _ => e) m ∧
    getRollbackConfigReply e = rollbackDiffReply e :=
  ⟨rfl, rfl⟩

/-- C1 counterexample: on a successful envelope whose rollback payload is well-formed
but holds no configuration text, both rollback operations return the empty string with
nil error — no fallback string is substituted, contradicting the claimed invariant. -/
theorem c1_counterexample :
    getRollbackConfig (fun _ => c1Env) 0 = OpResult.ok [] ∧
    rollbackDiff (fun _ => c1Env) 0 = OpResult.ok [] := by
  decide

/-- C1 as amended: every operation on an unsuccessful envelope with a non-empty error
list returns the first descriptor's message as the error; GetRescueConfig and Command
never return an empty string with nil error, the fixed fallback strings covering the
empty-payload case; but GetRollbackConfig and RollbackDiff return the extracted text
verbatim, empty or not. -/
theorem c1_amended_invariant (reply : Envelope) :
    (reply.ok = false → ∀ m rest, reply.errors = m :: rest →
      lockReply reply = some m.message ∧ unlockReply reply = some m.message ∧
      getRollbackConfigReply reply = OpResult.err m.message ∧
      rollbackDiffReply reply = OpResult.err m.message ∧
      getRescueConfigReply reply = OpResult.err m.message ∧
      commandReply reply = OpResult.err m.message) ∧
    (∀ s, getRescueConfigReply reply = OpResult.ok s → s ≠ []) ∧
    (∀ s, commandReply reply = OpResult.ok s → s ≠ []) ∧
    (∀ s, getRollbackConfigReply reply = OpResult.ok s →
      unmarshalRollback reply.data = some s) := by
  refine ⟨fun hok m rest he => reply_err_of_errors reply m rest hok he, ?_, ?_, ?_⟩
  · intro s h
    unfold getRescueConfigReply at h
    split at h
    · simp at h
    · split at h
      · simp at h
      · split at h
        · injection h with h1
          rw [← h1]
          decide
        · rename_i hcfg
          injection h with h1
          rw [← h1]
          exact hcfg
  · intro s h
    unfold commandReply at h
    split at h
    · simp at h
    · split at h
      · simp at h
      · split at h
        · injection h with h1
          rw [← h1]
          decide
        · rename_i hcfg
          injection h with h1
          rw [← h1]
          exact hcfg
  · intro s h
    unfold getRollbackConfigReply at h
    split at h
    · simp at h
    · split at h
      · simp at h
      · rename_i hu
        injection h with h1
        rw [← h1]
        exact hu

/-- Witness for the amended C1 at the two-error envelope and at the empty rescue
envelope. -/
theorem c1_amended_invariant_witness :
    getRollbackConfigReply envAB = OpResult.err "A".toList ∧
    noRescueMsg ≠ [] :=
  ⟨((c1_amended_invariant envAB).1 rfl ⟨"A".toList⟩ [⟨"B".toList⟩] rfl).2.2.1,
   (c1_amended_invariant envRescueEmpty).2.1 noRescueMsg (by decide)⟩

/-! Development for C6: formatting a numeric template slot substitutes the decimal
rendering of the argument, and that rendering occurs exactly once in the result. -/

/-- A digit character printed for a value below ten is a decimal digit. -/
theorem digitChar_isDigit (m : Nat) (h : m < 10) : (Nat.digitChar m).isDigit = true :=
  (by decide : ∀ j : Fin 10, (Nat.digitChar j.val).isDigit = true) ⟨m, h⟩

/-- Every character produced by `natDigitsGo` is a decimal digit. -/
theorem natDigitsGo_isDigit (fuel : Nat) :
    ∀ n c, c ∈ natDigitsGo fuel n → c.isDigit = true := by
  induction fuel with
  | zero => intro n c hc; simp [natDigitsGo] at hc
  | succ f ih =>
    intro n c hc
    unfold natDigitsGo at hc
    by_cases h : n < 10
    · rw [if_pos h] at hc
      simp only [List.mem_singleton] at hc
      subst hc
      exact digitChar_isDigit n h
    · rw [if_neg h] at hc
      rcases List.mem_append.1 hc with h1 | h1
      · exact ih _ _ h1
      · simp only [List.mem_singleton] at h1
        subst h1
        exact digitChar_isDigit _ (Nat.mod_lt _ (by norm_num))

/-- `natDigitsGo` with positive fuel never returns the empty list. -/
theorem natDigitsGo_ne_nil (f n : Nat) : natDigitsGo (f + 1) n ≠ [] := by
  unfold natDigitsGo
  by_cases h : n < 10
  · rw [if_pos h]
    simp
  · rw [if_neg h]
    simp

/-- Every character of `natDigits` is a decimal digit. -/
theorem natDigits_isDigit (n : Nat) : ∀ c ∈ natDigits n, c.isDigit = true :=
  fun c hc => natDigitsGo_isDigit (n + 1) n c hc

/-- `natDigits` is never empty. -/
theorem natDigits_ne_nil (n : Nat) : natDigits n ≠ [] := natDigitsGo_ne_nil n n

/-- Shape of a rendered integer: a head character that is a digit, or a minus sign
followed by at least one character, and decimal digits everywhere after the head. -/
theorem intRepr_shape (n : Int) :
    ∃ d ds, intRepr n = d :: ds ∧ (d.isDigit = true ∨ (d = '-' ∧ ds ≠ [])) ∧
      ∀ c ∈ ds, c.isDigit = true := by
  unfold intRepr
  by_cases h : n < 0
  · rw [if_pos h]
    exact ⟨'-', natDigits n.natAbs, rfl, Or.inr ⟨rfl, natDigits_ne_nil _⟩,
      fun c hc => natDigits_isDigit _ c hc⟩
  · rw [if_neg h]
    obtain ⟨d, ds, hds⟩ := List.exists_cons_of_ne_nil (natDigits_ne_nil n.toNat)
    refine ⟨d, ds, hds, Or.inl ?_, fun c hc => ?_⟩
    · exact natDigits_isDigit _ d (by rw [hds]; exact List.mem_cons_self _ _)
    · exact natDigits_isDigit _ c (by rw [hds]; exact List.mem_cons_of_mem _ hc)

/-- `sprintf` copies a segment free of the verb's first character unchanged. -/
theorem sprintf_append_left (v0 : Char) (vt repl : List Char) :
    ∀ pre rest : List Char, (∀ c ∈ pre, c ≠ v0) →
      sprintf (v0 :: vt) repl (pre ++ rest) = pre ++ sprintf (v0 :: vt) repl rest := by
  intro pre
  induction pre with
  | nil => intro rest _; simp
  | cons c pt ih =>
    intro rest hpre
    have hc : c ≠ v0 := hpre c (List.mem_cons_self _ _)
    show sprintf (v0 :: vt) repl (c :: (pt ++ rest)) =
      c :: (pt ++ sprintf (v0 :: vt) repl rest)
    simp only [sprintf]
    rw [if_neg fun hpref => hc (List.cons_prefix_cons.1 hpref).1.symm]
    rw [ih rest fun c2 hc2 => hpre c2 (List.mem_cons_of_mem _ hc2)]

/-- `sprintf` replaces the verb itself at the head of the remaining template. -/
theorem sprintf_verb (v0 : Char) (vt repl suf : List Char) :
    sprintf (v0 :: vt) repl ((v0 :: vt) ++ suf) = repl ++ suf := by
  show sprintf (v0 :: vt) repl (v0 :: (vt ++ suf)) = repl ++ suf
  simp only [sprintf]
  rw [if_pos (show (v0 :: vt) <+: v0 :: (vt ++ suf) from List.prefix_append (v0 :: vt) suf)]
  show repl ++ ((v0 :: vt) ++ suf).drop (v0 :: vt).length = repl ++ suf
  rw [List.drop_left]

/-- The last position of a non-empty list holds an element that is its head when the
tail is empty, and a member of the tail otherwise. -/
theorem getElem_last_cons :
    ∀ (l2 : List Char) (c0 : Char), ∃ c, (c0 :: l2)[l2.length]? = some c ∧
      ((l2 = [] ∧ c = c0) ∨ c ∈ l2) := by
  intro l2
  induction l2 with
  | nil => intro c0; exact ⟨c0, by simp, Or.inl ⟨rfl, rfl⟩⟩
  | cons e l3 ih =>
    intro c0
    obtain ⟨c, hc1, hc2⟩ := ih e
    refine ⟨c, ?_, Or.inr ?_⟩
    · simpa using hc1
    · rcases hc2 with ⟨_, h⟩ | h
      · rw [h]; exact List.mem_cons_self _ _
      · exact List.mem_cons_of_mem _ h

/-- A decimal rendering placed between digit-free text occurs in the concatenation
exactly once, namely at the slot position. -/
theorem countOcc_single (pre suf : List Char) (d : Char) (ds : List Char)
    (hpre : ∀ c ∈ pre, c.isDigit = false)
    (hsuf : ∀ c ∈ suf, c.isDigit = false)
    (hd : d.isDigit = true ∨ (d = '-' ∧ ds ≠ []))
    (hds : ∀ c ∈ ds, c.isDigit = true) :
    countOcc (d :: ds) (pre ++ (d :: ds) ++ suf) = 1 := by
  have hiff : ∀ p : Nat,
      (d :: ds) <+: (pre ++ (d :: ds) ++ suf).drop p ↔ p = pre.length := by
    intro p
    constructor
    · intro h
      obtain ⟨t, ht⟩ := h
      have hpt : ∀ i, i < ds.length + 1 →
          (pre ++ (d :: ds) ++ suf)[p + i]? = (d :: ds)[i]? := by
        intro i hi
        rw [← List.getElem?_drop, ← ht,
          List.getElem?_append_left (by simp only [List.length_cons]; omega)]
      have hregL : ∀ j, j < pre.length →
          (pre ++ (d :: ds) ++ suf)[j]? = pre[j]? := by
        intro j hj
        rw [List.getElem?_append_left
            (by simp only [List.length_append, List.length_cons]; omega),
          List.getElem?_append_left hj]
      have hregM : (pre ++ (d :: ds) ++ suf)[pre.length]? = some d := by
        rw [List.getElem?_append_left
            (by simp only [List.length_append, List.length_cons]; omega),
          List.getElem?_append_right (Nat.le_refl _)]
        simp
      have hregR : ∀ j, pre.length + (ds.length + 1) ≤ j →
          (pre ++ (d :: ds) ++ suf)[j]? =
            suf[j - (pre.length + (ds.length + 1))]? := by
        intro j hj
        rw [List.getElem?_append_right
          (by simp only [List.length_append, List.length_cons]; omega)]
        simp only [List.length_append, List.length_cons]
      by_contra hne
      rcases Nat.lt_trichotomy p pre.length with hp | hp | hp
      · rcases hd with hdig | ⟨hdash, hne2⟩
        · have h1 := hpt 0 (by omega)
          rw [Nat.add_zero] at h1
          rw [hregL p hp] at h1
          simp only [List.getElem?_cons_zero] at h1
          have hmem : d ∈ pre := List.getElem?_mem h1
          rw [hpre d hmem] at hdig
          exact Bool.false_ne_true hdig
        · rcases Nat.lt_or_ge pre.length (p + (ds.length + 1)) with hcase | hcase
          · have hi2 : pre.length - p < ds.length + 1 := by omega
            have h1 := hpt (pre.length - p) hi2
            have hpl : p + (pre.length - p) = pre.length := by omega
            rw [hpl] at h1
            rw [hregM] at h1
            obtain ⟨k, hk⟩ : ∃ k, pre.length - p = k + 1 :=
              ⟨pre.length - p - 1, by omega⟩
            rw [hk] at h1
            simp only [List.getElem?_cons_succ] at h1
            have hmem : d ∈ ds := List.getElem?_mem h1.symm
            have hd2 := hds d hmem
            rw [hdash] at hd2
            exact absurd hd2 (by decide)
          · obtain ⟨e, ds2, hds2⟩ := List.exists_cons_of_ne_nil hne2
            have hdsl : ds.length = ds2.length + 1 := by rw [hds2]; rfl
            have h1 := hpt 1 (by omega)
            rw [hregL (p + 1) (by omega)] at h1
            rw [hds2] at h1
            simp only [List.getElem?_cons_succ, List.getElem?_cons_zero] at h1
            have hmem : e ∈ pre := List.getElem?_mem h1
            have he : e.isDigit = true :=
              hds e (by rw [hds2]; exact List.mem_cons_self _ _)
            rw [hpre e hmem] at he
            exact Bool.false_ne_true he
      · exact hne hp
      · obtain ⟨c, hc1, hc2⟩ := getElem_last_cons ds d
        have hcdig : c.isDigit = true := by
          rcases hc2 with ⟨hnil, hcd⟩ | hmem2
          · rcases hd with hdig | ⟨_, hne2⟩
            · rw [hcd]; exact hdig
            · exact absurd hnil hne2
          · exact hds c hmem2
        have h1 := hpt ds.length (by omega)
        rw [hc1] at h1
        rw [hregR (p + ds.length) (by omega)] at h1
        have hmem : c ∈ suf := List.getElem?_mem h1
        rw [hsuf c hmem] at hcdig
        exact Bool.false_ne_true hcdig
    · intro hp
      subst hp
      have hdrop : (pre ++ (d :: ds) ++ suf).drop pre.length = (d :: ds) ++ suf := by
        rw [List.append_assoc, List.drop_left]
      rw [hdrop]
      exact List.prefix_append _ _
  unfold countOcc
  have h1 : (List.range (pre ++ (d :: ds) ++ suf).length).countP
      (fun p => decide ((d :: ds) <+: (pre ++ (d :: ds) ++ suf).drop p)) =
      (List.range (pre ++ (d :: ds) ++ suf).length).countP
        (fun p => p == pre.length) := by
    refine List.countP_congr ?_
    intro x _
    simp only [decide_eq_true_eq, beq_iff_eq]
    exact hiff x
  rw [h1, ← List.count_eq_countP]
  refine List.count_eq_one_of_mem (List.nodup_range _) ?_
  simp only [List.mem_range, List.length_append, List.length_cons]
  omega

/-- C6: formatting either numeric-slot RPC template (rollback fetch and rollback
compare) with an integer n substitutes the decimal rendering of n in the designated
slot with no other change to the template text, and that rendering occurs exactly
once in the resulting RPC XML. -/
theorem c6_numeric_slot_exact_once (n : Int) :
    sprintf pctD (intRepr n) rpcGetRollback =
      rpcGetRollbackPre ++ intRepr n ++ rpcGetRollbackSuf ∧
    countOcc (intRepr n) (sprintf pctD (intRepr n) rpcGetRollback) = 1 ∧
    sprintf pctD (intRepr n) rpcGetRollbackCompare =
      rpcGetRollbackComparePre ++ intRepr n ++ rpcGetRollbackCompareSuf ∧
    countOcc (intRepr n) (sprintf pctD (intRepr n) rpcGetRollbackCompare) = 1 := by
  obtain ⟨d, ds, hshape, hd, hds⟩ := intRepr_shape n
  have hfmt1 : sprintf pctD (intRepr n) rpcGetRollback =
      rpcGetRollbackPre ++ intRepr n ++ rpcGetRollbackSuf := by
    simp only [rpcGetRollback, pctD]
    rw [List.append_assoc]
    rw [sprintf_append_left '%' ['d'] (intRepr n) rpcGetRollbackPre
      (['%', 'd'] ++ rpcGetRollbackSuf) (by decide)]
    rw [sprintf_verb '%' ['d'] (intRepr n) rpcGetRollbackSuf]
    exact (List.append_assoc _ _ _).symm
  have hfmt2 : sprintf pctD (intRepr n) rpcGetRollbackCompare =
      rpcGetRollbackComparePre ++ intRepr n ++ rpcGetRollbackCompareSuf := by
    simp only [rpcGetRollbackCompare, pctD]
    rw [List.append_assoc]
    rw [sprintf_append_left '%' ['d'] (intRepr n) rpcGetRollbackComparePre
      (['%', 'd'] ++ rpcGetRollbackCompareSuf) (by decide)]
    rw [sprintf_verb '%' ['d'] (intRepr n) rpcGetRollbackCompareSuf]
    exact (List.append_assoc _ _ _).symm
  have hcnt1 : countOcc (intRepr n)
      (rpcGetRollbackPre ++ intRepr n ++ rpcGetRollbackSuf) = 1 := by
    rw [hshape]
    exact countOcc_single _ _ _ _ (by decide) (by decide) hd hds
  have hcnt2 : countOcc (intRepr n)
      (rpcGetRollbackComparePre ++ intRepr n ++ rpcGetRollbackCompareSuf) = 1 := by
    rw [hshape]
    exact countOcc_single _ _ _ _ (by decide) (by decide) hd hds
  exact ⟨hfmt1, by rw [hfmt1]; exact hcnt1, hfmt2, by rw [hfmt2]; exact hcnt2⟩

end Junos
